import Mathlib

/-!
Verification of the huggingface scraper pipeline (`src/utils.py`, `src/main.py`)
against its natural-language specification.

The Python code is shallowly embedded: pure text processing becomes Lean
functions on `String`/`List Char`; HTTP fetches become oracle functions
supplied in a `World` record (status code plus the DOM-extraction results the
code reads from each page, HTML parsing itself being an external collaborator
per the spec); file-system writes are recorded as the path strings the code
computes; a Python exception that would propagate out of a function is
modelled by an `Option`-valued result being `none`.
-/

/-! ## String helpers (embedding Python primitives) -/

/-- Python whitespace, as stripped by `str.strip()`. -/
def isPySpace (c : Char) : Bool :=
  c = ' ' || c = '\t' || c = '\n' || c = '\r' || c = '\x0b' || c = '\x0c'

/-- Python `s.strip()`: remove leading and trailing whitespace. -/
def pyStrip (s : String) : String :=
  ⟨((s.data.dropWhile isPySpace).reverse.dropWhile isPySpace).reverse⟩

/-- Python `s[:-1]`: drop the last character. -/
def dropLastStr (s : String) : String := ⟨s.data.dropLast⟩

/-- ASCII lower-casing of one character (Python `str.lower` on the ASCII
hrefs the code feeds it). -/
def lowChar (c : Char) : Char :=
  if 'A' ≤ c ∧ c ≤ 'Z' then Char.ofNat (c.toNat + 32) else c

/-- ASCII lower-casing of a string. -/
def lowerAscii (s : String) : String := ⟨s.data.map lowChar⟩

/-- Decide whether `pat` occurs as a contiguous segment of `cs`
(Python `pat in s` on strings). -/
def containsSeg (pat : List Char) : List Char → Bool
  | [] => pat.isEmpty
  | c :: rest => pat.isPrefixOf (c :: rest) || containsSeg pat rest

/-- Numeric value of a list of decimal digit characters. -/
def digitsToNat (ds : List Char) : Nat :=
  ds.foldl (fun a c => a * 10 + (c.toNat - 48)) 0

/-- The maximal leading run of digits of `s`, as a number; `none` when `s`
does not start with a digit.  Models `re.match(r'\d+', s)` followed by
`int(...)`; `none` corresponds to `match` returning `None` (so that the
subsequent `.group()` raises `AttributeError`). -/
def leadingNat (s : String) : Option Nat :=
  let ds := s.data.takeWhile Char.isDigit
  if ds.isEmpty then none else some (digitsToNat ds)

/-- Python `int(s)` on a token: defined when `s` is a nonempty run of digits,
`none` models `ValueError`. -/
def parse_int_tok (s : String) : Option Nat :=
  if s.data ≠ [] ∧ s.data.all Char.isDigit then some (digitsToNat s.data) else none

/-- Decompose a decimal token `d+` or `d+.d+` into (numerator, denominator):
the token's exact value is `numerator / denominator`.  Models `float(s)` for
the tokens the subheader regexes produce; the source's `int(float(s)*m)` is
modelled exactly over rationals (exact for the concrete inputs considered
here). -/
def parse_float_tok (s : String) : Option (Nat × Nat) :=
  let d1 := s.data.takeWhile Char.isDigit
  let r1 := s.data.dropWhile Char.isDigit
  if d1.isEmpty then none
  else
    match r1 with
    | [] => some (digitsToNat d1, 1)
    | '.' :: r2 =>
      if r2 ≠ [] ∧ r2.all Char.isDigit then
        some (digitsToNat d1 * 10 ^ r2.length + digitsToNat r2, 10 ^ r2.length)
      else none
    | _ => none

/-- Python `int(float(s) * mult)` with the float modelled exactly: truncated
toward zero (the values are non-negative). -/
def int_float_mul (s : String) (mult : Nat) : Option Nat :=
  (parse_float_tok s).map (fun p => p.1 * mult / p.2)

/-! ## The subheader regexes of `segment_links` (utils.py lines 94-96)

The three patterns
  `\t(\d+\.)?\d+[kM]?\n\t\t\t•`   (downloads, likes present)
  `\t(\d+\.)?\d+[kM]?\n\t\t\t`    (downloads, no likes)
  `\t(\d+\.)?\d+[kM]?\n\t\t\t(?!•)` (likes)
share the core `\t NUM \n\t\t\t` and differ only in what must follow.  The
core is rigid enough that backtracking never changes the outcome (after the
digit runs the next required character is `\n`, which no alternative branch
can produce), so matching at one position is deterministic, and `re.search`
is the leftmost such match. -/

/-- Consume an optional `k`/`M` unit suffix. -/
def sufSplit : List Char → List Char × List Char
  | 'k' :: r => (['k'], r)
  | 'M' :: r => (['M'], r)
  | r => ([], r)

/-- Match `(\d+\.)?\d+[kM]?` at the head of `cs`: returns the consumed
characters and the remainder, or `none` when no match is possible at this
position. -/
def numSplit (cs : List Char) : Option (List Char × List Char) :=
  let d1 := cs.takeWhile Char.isDigit
  let r1 := cs.dropWhile Char.isDigit
  if d1.isEmpty then none
  else
    match r1 with
    | '.' :: r2 =>
      let d2 := r2.takeWhile Char.isDigit
      let r3 := r2.dropWhile Char.isDigit
      if d2.isEmpty then none
      else
        let p := sufSplit r3
        some (d1 ++ '.' :: (d2 ++ p.1), p.2)
    | _ =>
      let p := sufSplit r1
      some (d1 ++ p.1, p.2)

/-- What must follow the common core `\t NUM \n\t\t\t`. -/
inductive TailCond where
  | bullet   -- a literal `•` (included in the match)
  | noBullet -- negative lookahead `(?!•)` (not included in the match)
  | free     -- nothing
deriving DecidableEq, Repr

/-- Attempt the pattern at the head of `cs`; returns `group(0)`. -/
def matchTabAt (cond : TailCond) (cs : List Char) : Option (List Char) :=
  match cs with
  | '\t' :: t =>
    match numSplit t with
    | none => none
    | some (num, r) =>
      match r with
      | '\n' :: '\t' :: '\t' :: '\t' :: r2 =>
        match cond with
        | .bullet =>
          match r2 with
          | '•' :: _ => some ('\t' :: num ++ ['\n', '\t', '\t', '\t', '•'])
          | _ => none
        | .noBullet =>
          if r2.head? = some '•' then none
          else some ('\t' :: num ++ ['\n', '\t', '\t', '\t'])
        | .free => some ('\t' :: num ++ ['\n', '\t', '\t', '\t'])
      | _ => none
  | _ => none

/-- `re.search`: the leftmost match of the pattern in `cs`. -/
def searchTab (cond : TailCond) : List Char → Option (List Char)
  | [] => none
  | c :: rest =>
    match matchTabAt cond (c :: rest) with
    | some m => some m
    | none => searchTab cond rest

/-- `pattern.search(s).group(0)` as a `String`; `none` when the search fails
(so that `.group` would raise `AttributeError`). -/
def regexSearch (cond : TailCond) (s : String) : Option String :=
  (searchTab cond s.data).map (fun l => ⟨l⟩)

/-- The unit-scaling applied to a stripped token (utils.py lines 113-118 and
122-129): `k` multiplies by 1000; `M` multiplies by `mM` (the source uses
1,000,000 in the downloads branch but 1,000 in the likes branch); otherwise
`int(token)`. -/
def scaleTok (tok : String) (mM : Nat) : Option Nat :=
  if tok.data.contains 'k' then int_float_mul (dropLastStr tok) 1000
  else if tok.data.contains 'M' then int_float_mul (dropLastStr tok) mM
  else parse_int_tok tok

/-- The per-link body of `segment_links` (utils.py lines 104-133): parse the
subheader into (download count, like count).  `none` models an uncaught
exception (failed regex search or failed `int(...)`). -/
def parse_sub_header (sub : String) (hasDl hasLk : Bool) : Option (Nat × Nat) :=
  let dl? : Option Nat :=
    if hasDl then
      (if ¬ hasLk then regexSearch .free sub else regexSearch .bullet sub)
        >>= fun m => scaleTok (pyStrip (dropLastStr m)) 1000000
    else some 0
  let lk? : Option Nat :=
    if hasLk then
      regexSearch .noBullet sub >>= fun m => scaleTok (pyStrip m) 1000
    else some 0
  match dl?, lk? with
  | some d, some l => some (d, l)
  | _, _ => none

/-- `segment_links` (utils.py lines 88-135), with the link-log file contents
already decoded into tuples `(url, sub_header, has_downloads, has_likes)`
(`literal_eval` of the stored lines being out of scope). -/
def segment_links (links : List (String × String × Bool × Bool)) :
    Option (List (String × Nat × Nat)) :=
  links.mapM (fun t => (parse_sub_header t.2.1 t.2.2.1 t.2.2.2).map
    (fun p => (t.1, p.1, p.2)))

/-! ## `allocate_to_workers` (utils.py lines 138-147)

Python:
```
d, r = divmod(len(links), n)
for i in range(n):
    si = (d+1)*(i if i < r else r) + d*(0 if i < r else i - r)
    yield links[si:si+(d+1 if i < r else d)]
```
The slice start and length expressions are named `wStart` and `wSizes`;
`links[a:a+c]` is `(links.drop a).take c` (both clamp the same way). -/

/-- The slice length `d+1 if i < r else d` of group `i`. -/
def wSizes (d r i : Nat) : Nat := if i < r then d + 1 else d

/-- The slice start `si` of group `i`. -/
def wStart (d r i : Nat) : Nat :=
  (d + 1) * (if i < r then i else r) + d * (if i < r then 0 else i - r)

/-- `allocate_to_workers(links, n)`, as the list of the generator's yields. -/
def allocate_to_workers {α : Type} (links : List α) (n : Nat) : List (List α) :=
  (List.range n).map (fun i =>
    (links.drop (wStart (links.length / n) (links.length % n) i)).take
      (wSizes (links.length / n) (links.length % n) i))

/-! ## The repository traverser (`get_model`, `get_commit_infos`)

HTTP and DOM extraction are external collaborators; a `World` supplies, for
one repository URL, the status codes and the extraction results the code
reads from each page it fetches.  Commit-history pages are keyed by their
page index `p` (the code requests `url + '/commits/main?p={p}'`), commit-tree
pages by the full URL the code builds (`url + '/tree/{commit_id}'`). -/

/-- One commit-history page `url/commits/main?p=…`: its status code and the
`(commit id, commit date)` pairs decoded from the `data-props` payloads of
its commit entries, in rendered order. -/
structure HistPage where
  status : Nat
  commits : List (String × String)
deriving DecidableEq, Repr

/-- One commit-tree page: its status code, the file names of the commit's
tree, and the hrefs of its `a[download]` links. -/
structure TreePage where
  status : Nat
  files : List String
  downloadHrefs : List String
deriving DecidableEq, Repr

/-- The pages the traversal of one repository URL can observe. -/
structure World where
  /-- Status code of the repository page itself. -/
  modelStatus : Nat
  /-- Text of `header > div > h1 > div:nth-of-type(1) > a`; `none` when the
  selector matches nothing (`IndexError` caught at utils.py line 204). -/
  userNode : Option String
  /-- Text of `header > div > h1 > div:nth-of-type(2) > a`; `none` when the
  selector matches nothing (`IndexError` caught at line 210). -/
  nameNode : Option String
  /-- Text of `header > div > h1` (used by the fallback at line 212). -/
  headerText : String
  /-- Texts of the `a.tag` elements. -/
  tagTexts : List String
  /-- Status code of `url/tree/main?not-for-all-audiences=true`. -/
  treeStatus : Nat
  /-- Text of `select('header > div > a > span')[1]` on the tree page;
  `none` when fewer than two spans exist (`IndexError` caught at line 236). -/
  badgeText : Option String
  /-- Commit-history page for each page index. -/
  histPage : Nat → HistPage
  /-- Commit-tree page for each commit-tree URL. -/
  commitTree : String → TreePage

/-- A per-commit record (utils.py `get_commit_infos` result dictionary plus
the `commit_date` added by `get_model`). `readme_path` records the path the
README was persisted to, `""` when the commit has none. -/
structure CommitRecord where
  commit_id : String
  commit_url : String
  files : List String
  readme_path : String
  commit_date : String
deriving DecidableEq, Repr

/-- One element of the `commit_history` list of a metadata dictionary: a
commit record on success, a bare status code (`.code`) in the degraded
records of the tree-page/history-page failure branches, or a bare boolean
(`.flag`) produced by line 260's `next(isinstance(ci, int) for ci in ...)`. -/
inductive HistItem where
  | entry : CommitRecord → HistItem
  | code : Nat → HistItem
  | flag : Bool → HistItem
deriving DecidableEq, Repr

/-- The `model_name` slot: a string normally, the HTTP status code in the
degraded record of the model-page failure branch (line 196). -/
inductive NameVal where
  | str : String → NameVal
  | code : Nat → NameVal
deriving DecidableEq, Repr

/-- The dictionary returned by `get_model` (`base_dictionary` /
`result_dictionary`, utils.py lines 183-189). -/
structure ModelMeta where
  repo_url : String
  user : String
  model_name : NameVal
  tags : List String
  commit_history : List HistItem
deriving DecidableEq, Repr

/-- `get_commit_infos` (utils.py lines 275-309).  Returns the status code
(`Sum.inl`) on a non-200 commit-tree page, otherwise the commit record; the
README content fetch and file write are I/O, recorded here as the computed
path `"{store_dir}/{commit_id}_README.md"`. -/
def get_commit_infos (w : World) (url : String) (commit_id : String)
    (store_dir : String) : Sum Nat CommitRecord :=
  let page := w.commitTree url
  if page.status ≠ 200 then Sum.inl page.status
  else
    let file_names := page.files
    let readme_url := page.downloadHrefs.filter
      (fun h => containsSeg "readme.md".data (lowerAscii h).data)
    match readme_url with
    | _ :: _ =>
      Sum.inr ⟨commit_id, url, file_names,
        store_dir ++ "/" ++ commit_id ++ "_README.md", ""⟩
    | [] => Sum.inr ⟨commit_id, url, file_names, "", ""⟩

/-- The commit-history page loop (utils.py lines 240-249) over an explicit
list of page indices: on the first non-200 page return its status code,
otherwise concatenate the pages' commit entries in page order. -/
def fetch_hist_pages (w : World) : List Nat → Sum Nat (List (String × String))
  | [] => Sum.inr []
  | p :: rest =>
    let page := w.histPage p
    if page.status ≠ 200 then Sum.inl page.status
    else
      match fetch_hist_pages w rest with
      | Sum.inl s => Sum.inl s
      | Sum.inr cs => Sum.inr (page.commits ++ cs)

/-- The commit-page count (utils.py lines 232-237): `divmod(count, 50)[0]`
from the badge's leading digits, `0` when the badge is absent (`IndexError`);
`none` models the uncaught `AttributeError` when the badge text does not
start with a digit. -/
def commit_pages_count (w : World) : Option Nat :=
  match w.badgeText with
  | none => some 0
  | some t => (leadingNat t).map (fun c => c / 50)

/-- `get_model` (utils.py lines 176-271).  `none` models an uncaught
exception; every abort branch returns `base_dictionary` with exactly one
field overwritten.  The `time.sleep` calls are dropped. -/
def get_model (w : World) (url : String) (store_dir : String) :
    Option ModelMeta :=
  let base : ModelMeta := ⟨url, "", NameVal.str "", [], []⟩
  if w.modelStatus ≠ 200 then
    some { base with model_name := NameVal.code w.modelStatus }
  else
    let user0 := w.userNode.getD ""
    let up : String × String :=
      match w.nameNode with
      | some nm => (user0, nm)
      | none => (w.headerText, user0)
    let user := up.1
    let model_name := up.2
    let readme_dir :=
      if containsSeg "\n\n\n".data user.data then store_dir ++ "/" ++ model_name
      else store_dir ++ "/" ++ user ++ "__" ++ model_name
    if w.treeStatus ≠ 200 then
      some { base with commit_history := [HistItem.code w.treeStatus] }
    else
      match commit_pages_count w with
      | none => none
      | some commit_pages =>
        match fetch_hist_pages w (List.range (commit_pages + 1)) with
        | Sum.inl st => some { base with commit_history := [HistItem.code st] }
        | Sum.inr commits =>
          let commit_ids := commits.map Prod.fst
          let commit_dates := commits.map Prod.snd
          let commit_urls := commit_ids.map (fun id => url ++ "/tree/" ++ id)
          let commit_infos := (commit_urls.zip commit_ids).map
            (fun cu => get_commit_infos w cu.1 cu.2 readme_dir)
          if commit_infos.any Sum.isLeft then
            match commit_infos.head? with
            | some ci => some { base with commit_history := [HistItem.flag ci.isLeft] }
            | none => none
          else
            let recs := commit_infos.filterMap
              (fun ci => match ci with | Sum.inl _ => none | Sum.inr r => some r)
            let withDates := (recs.zip commit_dates).map
              (fun rd => { rd.1 with commit_date := rd.2 })
            some ⟨url, user, NameVal.str model_name, w.tagTexts,
              withDates.map HistItem.entry⟩

/-- A repository whose single commit's detail fetch returns 429 (all earlier
fetches succeed and extract user, model name and a tag). -/
def wC1 : World where
  modelStatus := 200
  userNode := some "alice"
  nameNode := some "bert"
  headerText := "alice / bert"
  tagTexts := ["pytorch"]
  treeStatus := 200
  badgeText := none
  histPage := fun _ => ⟨200, [("c1", "2023-01-01")]⟩
  commitTree := fun _ => ⟨429, [], []⟩

/-- A repository with two commits whose first commit-detail fetch succeeds
and whose second returns 429, after user/name/tags were extracted. -/
def wC6 : World where
  modelStatus := 200
  userNode := some "alice"
  nameNode := some "bert"
  headerText := "alice / bert"
  tagTexts := ["pytorch"]
  treeStatus := 200
  badgeText := none
  histPage := fun _ => ⟨200, [("c1", "2023-01-01"), ("c2", "2023-01-02")]⟩
  commitTree := fun u =>
    if u = "R/tree/c1" then ⟨200, ["README.md"], ["/a/README.md"]⟩
    else ⟨429, [], []⟩

/-- A repository whose tree-page badge reads "120 commits" (so three history
pages, indices 0..2, must be fetched), all returning 200. -/
def wC7 : World where
  modelStatus := 200
  userNode := some "alice"
  nameNode := some "bert"
  headerText := "alice / bert"
  tagTexts := []
  treeStatus := 200
  badgeText := some "120 commits"
  histPage := fun p =>
    if p = 0 then ⟨200, [("c1", "d1")]⟩
    else if p = 1 then ⟨200, [("c2", "d2")]⟩
    else ⟨200, [("c3", "d3")]⟩
  commitTree := fun _ => ⟨200, [], []⟩

/-- A repository with two commits, both commit-tree pages returning 200, of
which only the first carries a downloadable README link. -/
def wC9 : World where
  modelStatus := 200
  userNode := some "alice"
  nameNode := some "bert"
  headerText := "alice / bert"
  tagTexts := ["pytorch"]
  treeStatus := 200
  badgeText := none
  histPage := fun _ => ⟨200, [("c1", "2023-01-01"), ("c2", "2023-01-02")]⟩
  commitTree := fun u =>
    if u = "R/tree/c1" then ⟨200, ["README.md", "config.json"], ["/a/README.md"]⟩
    else ⟨200, ["config.json"], []⟩

/-! ## Link discovery (`scrape_index_page`, `get_repo_links`, utils.py 31-85) -/

def URL_BASE : String := "https://huggingface.co"

def URL_MODELS : String := "https://huggingface.co/models"

/-- One catalog overview page: per-listing hrefs, subheader texts and icon
flags (all equal-length, coming from the same selected nodes), plus the href
of the anchor whose text is exactly "Next" (`none` when no such anchor
exists, the `StopIteration` branch). -/
structure IndexPage where
  hrefs : List String
  subHeaders : List String
  hasDownloadsFlags : List Bool
  hasLikesFlags : List Bool
  nextHref : Option String
deriving Repr

/-- Python `zip(a, b, c, d)` (truncating to the shortest input). -/
def zip4 {α β γ δ : Type} (as : List α) (bs : List β) (cs : List γ)
    (ds : List δ) : List (α × β × γ × δ) :=
  ((as.zip bs).zip (cs.zip ds)).map (fun p => (p.1.1, p.1.2, p.2.1, p.2.2))

/-- `scrape_index_page` (utils.py lines 54-85): the page's listing records
`(url, sub_header, has_downloads, has_likes)` with full urls
`URL_BASE + href`, and the next-page url `URL_MODELS + next_href`. -/
def scrape_index_page (pages : String → IndexPage) (url : String) :
    List (String × String × Bool × Bool) × Option String :=
  let p := pages url
  (zip4 (p.hrefs.map (fun h => URL_BASE ++ h)) p.subHeaders
     p.hasDownloadsFlags p.hasLikesFlags,
   p.nextHref.map (fun h => URL_MODELS ++ h))

/-- The `while next_url` loop of `get_repo_links` (utils.py lines 42-51),
threading the accumulator `all_links` and the per-iteration variable
`links`; on exit the function returns `links` — the records of the LAST
page scraped, not `all_links`.  `fuel` bounds the number of pages followed
(`none` models a crawl that never runs out of next links). -/
def get_repo_links_go (pages : String → IndexPage) :
    Nat → Option String → List (String × String × Bool × Bool) →
    List (String × String × Bool × Bool) →
    Option (List (String × String × Bool × Bool))
  | _, none, _, links => some links
  | 0, some _, _, _ => none
  | fuel + 1, some u, all_links, _ =>
    let r := scrape_index_page pages u
    get_repo_links_go pages fuel r.2 (all_links ++ r.1) r.1

/-- `get_repo_links` (utils.py lines 31-51); the optional persistent link log
is an append-only side effect and not part of the return value. -/
def get_repo_links (pages : String → IndexPage) (fuel : Nat) (url : String) :
    Option (List (String × String × Bool × Bool)) :=
  get_repo_links_go pages fuel (some url) [] []

/-- A two-page catalog: the start page lists two models and links a "Next"
page that lists one more and has no further link — three listings in all. -/
def pagesC2 : String → IndexPage := fun u =>
  if u = URL_MODELS then
    ⟨["/m1", "/m2"], ["s1", "s2"], [true, true], [true, false], some "?p=1"⟩
  else
    ⟨["/m3"], ["s3"], [false, false], [false, false], none⟩

/-! ## The prior-run filter of the driver (main.py lines 31-46)

A prior metadata CSV row is kept when `user` is not NaN (pandas reads an
empty CSV field as NaN, so an empty `user` string is dropped by
`meta['user'].notna()`) and its serialized `commit_history` column does not
match the regex `\[4\d{2}\]`.  The kept rows' `repo_url` values are then
excluded from the new work list. -/

/-- A prior metadata row as the driver sees it: `repo_url`, the `user` field
(`""` for an empty CSV field, which pandas reads as NaN), and the serialized
`commit_history` column text. -/
structure PriorRow where
  repo_url : String
  user : String
  commit_history : String
deriving DecidableEq, Repr

/-- Does `\[4\d{2}\]` match at the head of `cs`? -/
def matches4xxAt : List Char → Bool
  | '[' :: '4' :: a :: b :: ']' :: _ => a.isDigit && b.isDigit
  | _ => false

/-- `Series.str.contains(r'\[4\d{2}\]')` for one cell: the pattern occurs
somewhere in the string. -/
def contains4xxList : List Char → Bool
  | [] => false
  | c :: rest => matches4xxAt (c :: rest) || contains4xxList rest

def contains4xx (s : String) : Bool := contains4xxList s.data

/-- The row filter of main.py lines 36-37: keep rows with a non-empty user
whose commit history does not match the 4xx pattern. -/
def keep_row (r : PriorRow) : Bool := r.user ≠ "" && ! contains4xx r.commit_history

/-- The rewritten prior metadata (main.py lines 33-38, over the concatenated
rows of all `meta*.csv` files). -/
def filter_prior (rows : List PriorRow) : List PriorRow := rows.filter keep_row

/-- The dedup filter of main.py line 44: drop links whose url appears among
the kept rows' `repo_url`s. -/
def remaining_links (links : List (String × Nat × Nat)) (kept : List PriorRow) :
    List (String × Nat × Nat) :=
  links.filter (fun l => ! (kept.map PriorRow.repo_url).contains l.1)

def rowsC8 : List PriorRow :=
  [⟨"https://huggingface.co/a/m1", "", "[429]"⟩,
   ⟨"https://huggingface.co/a/m2", "alice", "[]"⟩]

def linksC8 : List (String × Nat × Nat) :=
  [("https://huggingface.co/a/m1", 10, 5),
   ("https://huggingface.co/a/m2", 20, 6),
   ("https://huggingface.co/a/m3", 30, 7)]

/-! ## The worker loop (`main_parallel`, utils.py lines 150-173) -/

/-- Python's truthiness test `not model_dict` (utils.py line 163) on a
dictionary returned by `get_model`: every such dictionary carries the five
keys of `base_dictionary`, so the test is false for every returned value. -/
def model_dict_is_empty (_m : ModelMeta) : Bool := false

/-- One CSV row appended by the worker loop: the `get_model` dictionary with
the `downloads` and `likes` keys added (utils.py lines 165-166). -/
structure OutRow where
  meta : ModelMeta
  downloads : Nat
  likes : Nat
deriving DecidableEq, Repr

/-- `main_parallel` (utils.py lines 150-173) over one worker's links
`(url, download_count, like_count)`, with `ws` giving the `World` each
repository url is traversed against.  Returns the rows appended to the
worker's metadata file, the urls traversed (those for which `get_model` was
invoked), and whether the loop died on an uncaught exception (in which case
the rows of the links already processed were appended before the crash and
the remaining links are not reached; the components reported here are those
of the crashed tail). -/
def main_parallel (ws : String → World) (store_dir : String)
    (links : List (String × Nat × Nat)) (like_thld : Nat) :
    List OutRow × List String × Bool :=
  match links with
  | [] => ([], [], false)
  | (url, dlc, lkc) :: rest =>
    if lkc < like_thld then main_parallel ws store_dir rest like_thld
    else
      match get_model (ws url) url store_dir with
      | none => ([], [url], true)
      | some md =>
        let r := main_parallel ws store_dir rest like_thld
        if model_dict_is_empty md then (r.1, url :: r.2.1, r.2.2)
        else (⟨md, dlc, lkc⟩ :: r.1, url :: r.2.1, r.2.2)

/-- Two repositories whose model pages return 404, so every traversal
returns a degraded (but non-empty) dictionary. -/
def wsC10 : String → World := fun _ =>
  { modelStatus := 404
    userNode := none
    nameNode := none
    headerText := ""
    tagTexts := []
    treeStatus := 200
    badgeText := none
    histPage := fun _ => ⟨200, []⟩
    commitTree := fun _ => ⟨200, [], []⟩ }

def linksC10 : List (String × Nat × Nat) := [("R1", 10, 2), ("R2", 20, 5)]

/-! ## Theorems -/

example : parse_sub_header "\t1.2k\n\t\t\t•\n\t\t\t340\n\t\t\t" true true = some (1200, 340) := by decide

example : parse_sub_header "1.2k\n\t\t\t•\n\t\t\t340" true true = none := by decide

example : parse_sub_header "\t2M\n\t\t\t" true false = some (2000000, 0) := by decide

example : parse_sub_header "\t57\n\t\t\t" false true = some (0, 57) := by decide

example : parse_sub_header "\t2M\n\t\t\t" false true = some (0, 2000) := by decide

theorem wStart_step (d r k : Nat) :
    wStart d r (k + 1) = wStart d r k + wSizes d r k := by
  unfold wStart wSizes
  have e1 : (d + 1) * (k + 1) = (d + 1) * k + (d + 1) := by ring
  rcases Nat.lt_or_ge (k + 1) r with h1 | h1
  · have h0 : k < r := Nat.lt_of_succ_lt h1
    simp only [if_pos h0, if_pos h1]
    omega
  · rcases Nat.lt_or_ge k r with h0 | h0
    · have hr : r = k + 1 := Nat.le_antisymm h1 h0
      subst hr
      simp only [if_pos h0, if_neg (Nat.lt_irrefl (k + 1)), Nat.sub_self]
      omega
    · have hne : ¬ k + 1 < r := by omega
      have hs : k + 1 - r = (k - r) + 1 := by omega
      have e2 : d * ((k - r) + 1) = d * (k - r) + d := by ring
      simp only [if_neg (Nat.not_lt.mpr h0), if_neg hne, hs]
      omega

theorem wStart_mono (d r : Nat) {i j : Nat} (h : i ≤ j) :
    wStart d r i ≤ wStart d r j := by
  induction j with
  | zero => simp [Nat.le_zero.mp h]
  | succ j ih =>
    rcases Nat.lt_or_ge i (j + 1) with h1 | h1
    · calc wStart d r i ≤ wStart d r j := ih (Nat.lt_succ_iff.mp h1)
        _ ≤ wStart d r (j + 1) := by rw [wStart_step]; omega
    · have : i = j + 1 := Nat.le_antisymm h h1
      subst this; exact Nat.le_refl _

theorem wStart_total {L n d r : Nat} (hd : d = L / n) (hr : r = L % n)
    (hn : 1 ≤ n) : wStart d r n = L := by
  have hmod : r < n := hr ▸ Nat.mod_lt L (by omega)
  have hL : d * n + r = L := by
    rw [hd, hr, Nat.mul_comm]
    exact Nat.div_add_mod L n
  unfold wStart
  rw [if_neg (by omega : ¬ n < r), if_neg (by omega : ¬ n < r)]
  have e1 : (d + 1) * r = d * r + r := by ring
  have e2 : d * r + d * (n - r) = d * n := by
    rw [← Nat.mul_add, Nat.add_sub_cancel' (Nat.le_of_lt hmod)]
  omega

theorem wStart_add_size_le {L n d r i : Nat} (hd : d = L / n) (hr : r = L % n)
    (hi : i < n) : wStart d r i + wSizes d r i ≤ L := by
  have hn : 1 ≤ n := by omega
  calc wStart d r i + wSizes d r i = wStart d r (i + 1) := (wStart_step d r i).symm
    _ ≤ wStart d r n := wStart_mono d r hi
    _ = L := wStart_total hd hr hn

/-- The groups' length profile: group `i` has `d+1` elements for `i < r` and
`d` elements otherwise. -/
theorem alloc_length_map {α : Type} (links : List α) (n : Nat) :
    (allocate_to_workers links n).map List.length
      = (List.range n).map (wSizes (links.length / n) (links.length % n)) := by
  unfold allocate_to_workers
  rw [List.map_map]
  apply List.map_congr_left
  intro i hi
  have hin : i < n := List.mem_range.mp hi
  have hb := wStart_add_size_le (L := links.length) (n := n) rfl rfl hin
  simp only [Function.comp, List.length_take, List.length_drop]
  omega

theorem wStart_zero (d r : Nat) : wStart d r 0 = 0 := by
  unfold wStart
  rcases Nat.eq_zero_or_pos r with h | h
  · subst h; simp
  · rw [if_pos h, if_pos h]; simp

/-- Concatenating the groups from index `k` on recovers the tail of the list
from offset `wStart k`; by downward induction on the number of remaining
groups. -/
theorem alloc_join_from {α : Type} (links : List α) (n : Nat) (hn : 1 ≤ n) :
    ∀ m k, k + m = n →
      ((List.range' k m).map (fun i =>
          (links.drop (wStart (links.length / n) (links.length % n) i)).take
            (wSizes (links.length / n) (links.length % n) i))).flatten
        = links.drop (wStart (links.length / n) (links.length % n) k) := by
  intro m
  induction m with
  | zero =>
    intro k hk
    have hk' : k = n := by omega
    subst hk'
    rw [wStart_total rfl rfl hn]
    simp [List.drop_length]
  | succ m ih =>
    intro k hk
    rw [List.range'_succ, List.map_cons, List.flatten_cons,
        ih (k + 1) (by omega), wStart_step]
    generalize wStart (links.length / n) (links.length % n) k = st
    generalize wSizes (links.length / n) (links.length % n) k = sz
    rw [← List.drop_drop]
    exact List.take_append_drop _ _

/-- The groups concatenate, in order, to the original list. -/
theorem alloc_join {α : Type} (links : List α) (n : Nat) (hn : 1 ≤ n) :
    (allocate_to_workers links n).flatten = links := by
  unfold allocate_to_workers
  rw [List.range_eq_range', alloc_join_from links n hn n 0 (by omega), wStart_zero]
  exact List.drop_zero links

theorem alloc_mem_length {α : Type} (links : List α) (n : Nat) {g : List α}
    (hg : g ∈ allocate_to_workers links n) :
    g.length = links.length / n ∨ g.length = links.length / n + 1 := by
  have : g.length ∈ (allocate_to_workers links n).map List.length :=
    List.mem_map_of_mem List.length hg
  rw [alloc_length_map] at this
  rcases List.mem_map.mp this with ⟨i, _, hlen⟩
  unfold wSizes at hlen
  split at hlen
  · right; omega
  · left; omega

example : allocate_to_workers [0, 1, 2, 3, 4] 2 = [[0, 1, 2], [3, 4]] := by decide

example : allocate_to_workers ([] : List Nat) 3 = [[], [], []] := by decide

example : allocate_to_workers [1, 2] 3 = [[1], [2], []] := by decide

/-- C1: the claim says a traversal in which a commit-detail retrieval returns
a non-200 status aborts and returns a degraded record whose `commit_history`
is a one-element list holding that status code.  The code does abort, and no
partially collected commit records appear, but utils.py line 260 stores
`[next(isinstance(ci, int) for ci in commit_infos)]` — the `isinstance` test
of the first element, a boolean — so for a repository whose only commit's
detail fetch returns 429 the degraded record's `commit_history` is `[True]`,
not `[429]`. -/
theorem c1_commit_detail_abort_stores_bool :
    get_model wC1 "R" "S"
      = some ⟨"R", "", NameVal.str "", [], [HistItem.flag true]⟩ ∧
    (wC1.commitTree "R/tree/c1").status = 429 ∧
    HistItem.flag true ≠ HistItem.code 429 := by decide

/-- C6: the claim says every degraded record of an early-aborted traversal
carries only `repo_url` plus a marker status code, with all other fields
empty defaults.  In the commit-detail abort path the other fields are indeed
the empty defaults (user and tags were extracted but are dropped, and the
abort returns rather than raising), but the marker stored is the boolean
`False` (the `isinstance` test of the first, successful, commit info), not
an HTTP status code. -/
theorem c6_degraded_record_bool_marker :
    get_model wC6 "R" "S"
      = some ⟨"R", "", NameVal.str "", [], [HistItem.flag false]⟩ ∧
    (wC6.commitTree "R/tree/c2").status = 429 ∧
    wC6.userNode = some "alice" ∧ wC6.tagTexts = ["pytorch"] ∧
    (∀ s : Nat, HistItem.flag false ≠ HistItem.code s) := by
  refine ⟨by decide, by decide, by decide, by decide, ?_⟩
  intro s h
  exact HistItem.noConfusion h

/-- The commit-history loop succeeds on a list of all-200 pages and returns
the concatenation of the pages' commit entries in page order. -/
theorem fetch_hist_pages_all_ok (w : World) (ps : List Nat)
    (h : ∀ p ∈ ps, (w.histPage p).status = 200) :
    fetch_hist_pages w ps
      = Sum.inr ((ps.map (fun p => (w.histPage p).commits)).flatten) := by
  induction ps with
  | nil => rfl
  | cons p rest ih =>
    have hp : (w.histPage p).status = 200 := h p (List.mem_cons_self p rest)
    rw [fetch_hist_pages, ih (fun q hq => h q (List.mem_cons_of_mem p hq))]
    simp [hp]

/-- C7: `commit_pages = floor(badge count / 50)`; when the badge is absent,
`commit_pages = 0`; and the commit-history loop ranges over page indices
`0 .. commit_pages` inclusive, collecting every one of those pages' commits
(in page order) when all of them return 200 — in particular page 0 is
fetched even when the badge is absent. -/
theorem c7_commit_pages (w : World) :
    (∀ t c, w.badgeText = some t → leadingNat t = some c →
       commit_pages_count w = some (c / 50)) ∧
    (w.badgeText = none → commit_pages_count w = some 0) ∧
    (∀ cp, (∀ p ∈ List.range (cp + 1), (w.histPage p).status = 200) →
       fetch_hist_pages w (List.range (cp + 1))
         = Sum.inr (((List.range (cp + 1)).map
             (fun p => (w.histPage p).commits)).flatten)) := by
  refine ⟨?_, ?_, ?_⟩
  · intro t c ht hc
    simp [commit_pages_count, ht, hc]
  · intro h
    simp [commit_pages_count, h]
  · intro cp h
    exact fetch_hist_pages_all_ok w _ h

theorem c7_commit_pages_witness :
    (wC7.badgeText = some "120 commits" ∧ leadingNat "120 commits" = some 120 ∧
     commit_pages_count wC7 = some (120 / 50)) ∧
    ((∀ p ∈ List.range (2 + 1), (wC7.histPage p).status = 200) ∧
     fetch_hist_pages wC7 (List.range (2 + 1))
       = Sum.inr (((List.range (2 + 1)).map
           (fun p => (wC7.histPage p).commits)).flatten)) :=
  ⟨⟨rfl, rfl, (c7_commit_pages wC7).1 "120 commits" 120 rfl rfl⟩,
   ⟨by decide, (c7_commit_pages wC7).2.2 2 (by decide)⟩⟩

/-- C9: on a 200 commit-tree page `get_commit_infos` returns a record with
the commit's file names, whose `readme_path` is
`"{store_dir}/{commit_id}_README.md"` exactly when a downloadable link whose
target contains `readme.md` case-insensitively exists and `""` otherwise;
and on a repository with two successful commits of which only the first has
a README, `get_model` yields a `commit_history` of length two whose first
entry has a non-empty `readme_path` and whose second has an empty one. -/
theorem c9_commit_detail :
    (∀ w url cid dir, (w.commitTree url).status = 200 →
       get_commit_infos w url cid dir
         = Sum.inr ⟨cid, url, (w.commitTree url).files,
             (if (w.commitTree url).downloadHrefs.filter
                  (fun h => containsSeg "readme.md".data (lowerAscii h).data) = []
              then "" else dir ++ "/" ++ cid ++ "_README.md"), ""⟩) ∧
    get_model wC9 "R" "S"
      = some ⟨"R", "alice", NameVal.str "bert", ["pytorch"],
          [HistItem.entry ⟨"c1", "R/tree/c1", ["README.md", "config.json"],
             "S/alice__bert/c1_README.md", "2023-01-01"⟩,
           HistItem.entry ⟨"c2", "R/tree/c2", ["config.json"], "",
             "2023-01-02"⟩]⟩ := by
  constructor
  · intro w url cid dir h
    rw [get_commit_infos]
    rw [if_neg (by simp [h])]
    cases hfl : (w.commitTree url).downloadHrefs.filter
        (fun h => containsSeg "readme.md".data (lowerAscii h).data) with
    | nil => simp
    | cons a l => simp
  · decide

theorem c9_commit_detail_witness :
    (wC9.commitTree "R/tree/c2").status = 200 ∧
    get_commit_infos wC9 "R/tree/c2" "c2" "S/alice__bert"
      = Sum.inr ⟨"c2", "R/tree/c2", (wC9.commitTree "R/tree/c2").files,
          (if (wC9.commitTree "R/tree/c2").downloadHrefs.filter
               (fun h => containsSeg "readme.md".data (lowerAscii h).data) = []
           then "" else "S/alice__bert" ++ "/" ++ "c2" ++ "_README.md"), ""⟩ :=
  ⟨rfl, c9_commit_detail.1 wC9 "R/tree/c2" "c2" "S/alice__bert" rfl⟩

/-- C2: the claim says `get_repo_links` returns the records of every
paginated overview page.  It does not: the loop accumulates `all_links` but
line 51 returns `links`, the variable holding only the final page's records.
On a two-page catalog with 2 + 1 listings it returns the single record of
the last page. -/
theorem c2_returns_last_page_only :
    (scrape_index_page pagesC2 URL_MODELS).1.length = 2 ∧
    (scrape_index_page pagesC2 (URL_MODELS ++ "?p=1")).1.length = 1 ∧
    get_repo_links pagesC2 10 URL_MODELS
      = some [(URL_BASE ++ "/m3", "s3", false, false)] := by decide

/-- C8: every prior row with an empty `user` and a 4xx-pattern
`commit_history` (such as `[429]`) is discarded before the dedup filter, and
the urls of the rows that are kept are excluded from the new work list, so
no url is both in a kept row and in the remaining work list. -/
theorem c8_retry_filter (rows : List PriorRow) (links : List (String × Nat × Nat)) :
    (∀ r ∈ rows, r.user = "" → contains4xx r.commit_history = true →
       r ∉ filter_prior rows) ∧
    (∀ l ∈ remaining_links links (filter_prior rows),
       ∀ r ∈ filter_prior rows, r.repo_url ≠ l.1) := by
  constructor
  · intro r _ hu _ hmem
    have hk : keep_row r = true := (List.mem_filter.mp hmem).2
    rw [keep_row, hu] at hk
    simp at hk
  · intro l hl r hr heq
    have hnot : (! ((filter_prior rows).map PriorRow.repo_url).contains l.1) = true :=
      (List.mem_filter.mp hl).2
    have hmem : l.1 ∈ (filter_prior rows).map PriorRow.repo_url :=
      heq ▸ List.mem_map_of_mem PriorRow.repo_url hr
    rw [Bool.not_eq_true'] at hnot
    have hc : ((filter_prior rows).map PriorRow.repo_url).contains l.1 = true :=
      List.elem_iff.mpr hmem
    rw [hnot] at hc
    exact Bool.noConfusion hc

theorem c8_retry_filter_witness :
    ((⟨"https://huggingface.co/a/m1", "", "[429]"⟩ : PriorRow) ∈ rowsC8 ∧
     (⟨"https://huggingface.co/a/m1", "", "[429]"⟩ : PriorRow).user = "" ∧
     contains4xx "[429]" = true ∧
     (⟨"https://huggingface.co/a/m1", "", "[429]"⟩ : PriorRow)
       ∉ filter_prior rowsC8) ∧
    (("https://huggingface.co/a/m1", 10, 5) ∈ remaining_links linksC8 (filter_prior rowsC8) ∧
     ∀ r ∈ filter_prior rowsC8,
       r.repo_url ≠ ("https://huggingface.co/a/m1", 10, 5).1) :=
  ⟨⟨by decide, rfl, by decide,
    (c8_retry_filter rowsC8 linksC8).1 _ (by decide) rfl (by decide)⟩,
   ⟨by decide,
    (c8_retry_filter rowsC8 linksC8).2 _ (by decide)⟩⟩

/-- C10: when no traversal raises, the worker loop appends exactly one row
per link whose like count reaches the threshold — also for degraded
records, since `model_dict_is_empty` is identically false (`get_model`
always returns a five-key dictionary), so the skip-on-empty branch never
fires — and links below the threshold are neither traversed nor written. -/
theorem c10_one_row_per_link (ws : String → World) (store_dir : String)
    (links : List (String × Nat × Nat)) (like_thld : Nat)
    (h : ∀ l ∈ links, (get_model (ws l.1) l.1 store_dir).isSome = true) :
    (main_parallel ws store_dir links like_thld
      = (links.filterMap (fun t =>
           if t.2.2 < like_thld then none
           else (get_model (ws t.1) t.1 store_dir).map
             (fun md => ⟨md, t.2.1, t.2.2⟩)),
         (links.filter (fun t => ! decide (t.2.2 < like_thld))).map
           (fun t => t.1),
         false)) ∧
    (links.filterMap (fun t =>
        if t.2.2 < like_thld then none
        else (get_model (ws t.1) t.1 store_dir).map
          (fun md => (⟨md, t.2.1, t.2.2⟩ : OutRow)))).length
      = (links.filter (fun t => ! decide (t.2.2 < like_thld))).length ∧
    (∀ m : ModelMeta, model_dict_is_empty m = false) := by
  refine ⟨?_, ?_, fun _ => rfl⟩
  · induction links with
    | nil => rfl
    | cons t rest ih =>
      obtain ⟨url, dlc, lkc⟩ := t
      have hrest := ih (fun l hl => h l (List.mem_cons_of_mem _ hl))
      by_cases hlt : lkc < like_thld
      · simp only [main_parallel, if_pos hlt, hrest, List.filterMap_cons,
          List.filter_cons]
        simp [hlt]
      · have hs : (get_model (ws url) url store_dir).isSome = true :=
          h _ (List.mem_cons_self _ _)
        obtain ⟨md, hmd⟩ := Option.isSome_iff_exists.mp hs
        simp only [main_parallel, if_neg hlt, hmd, hrest, List.filterMap_cons,
          List.filter_cons, model_dict_is_empty]
        simp [hlt]
  · induction links with
    | nil => rfl
    | cons t rest ih =>
      obtain ⟨url, dlc, lkc⟩ := t
      have hrest := ih (fun l hl => h l (List.mem_cons_of_mem _ hl))
      by_cases hlt : lkc < like_thld
      · simp [List.filterMap_cons, List.filter_cons, hlt, hrest]
      · have hs : (get_model (ws url) url store_dir).isSome = true :=
          h _ (List.mem_cons_self _ _)
        obtain ⟨md, hmd⟩ := Option.isSome_iff_exists.mp hs
        simp [List.filterMap_cons, List.filter_cons, hlt, hmd, hrest]

theorem c10_one_row_per_link_witness :
    (∀ l ∈ linksC10, (get_model (wsC10 l.1) l.1 "S").isSome = true) ∧
    main_parallel wsC10 "S" linksC10 3
      = (linksC10.filterMap (fun t =>
           if t.2.2 < 3 then none
           else (get_model (wsC10 t.1) t.1 "S").map
             (fun md => ⟨md, t.2.1, t.2.2⟩)),
         (linksC10.filter (fun t => ! decide (t.2.2 < 3))).map (fun t => t.1),
         false) :=
  ⟨by decide, (c10_one_row_per_link wsC10 "S" linksC10 3 (by decide)).1⟩

/-- C3 counterexample: on the spec's exact example snippet
`"1.2k\n\t\t\t•\n\t\t\t340"` the downloads pattern finds no match (every
subheader pattern requires a tab immediately before the numeric token), so
the parse raises `AttributeError` instead of returning `(1200, 340)`. -/
theorem c3_spec_snippets_fail :
    segment_links [("u", "1.2k\n\t\t\t•\n\t\t\t340", true, true)]
      ≠ some [("u", 1200, 340)] := by decide

/-- C3 (amended): on subheader snippets carrying the tab/newline framing the
site renders (a tab before each numeric token, a `\n\t\t\t` after it) the
parser produces the claimed values, and on the spec's unframed snippets
every parse fails. -/
theorem c3_subheader_examples :
    parse_sub_header "\t1.2k\n\t\t\t•\n\t\t\t340\n\t\t\t" true true = some (1200, 340) ∧
    parse_sub_header "\t2M\n\t\t\t" true false = some (2000000, 0) ∧
    parse_sub_header "\t57\n\t\t\t" false true = some (0, 57) ∧
    parse_sub_header "1.2k\n\t\t\t•\n\t\t\t340" true true = none ∧
    parse_sub_header "2M\n\t\t\t" true false = none ∧
    parse_sub_header "57" false true = none := by decide

/-- C4: the claim says the `M` suffix multiplies by 1,000,000 for both the
download and the like token.  The downloads branch does (utils.py line 116),
but the likes branch multiplies `M` tokens by 1,000 (line 127), so a like
token `2M` yields 2,000 instead of 2,000,000; `k` tokens and suffix-less
tokens behave as claimed in both branches. -/
theorem c4_likes_M_scaling_bug :
    parse_sub_header "\t2M\n\t\t\t" false true = some (0, 2000) ∧
    parse_sub_header "\t2M\n\t\t\t" true false = some (2000000, 0) ∧
    parse_sub_header "\t1.2k\n\t\t\t" false true = some (0, 1200) ∧
    parse_sub_header "\t1.2k\n\t\t\t" true false = some (1200, 0) ∧
    parse_sub_header "\t340\n\t\t\t" false true = some (0, 340) ∧
    parse_sub_header "\t340\n\t\t\t" true false = some (340, 0) := by decide

/-- C5: for every item list and every worker count `n ≥ 1`,
`allocate_to_workers` yields exactly `n` groups whose sizes sum to the item
count and differ pairwise by at most one, whose concatenation in group order
is the original list, and in which the first `len mod n` groups receive one
extra item. -/
theorem c5_partition_props {α : Type} (links : List α) (n : Nat) (hn : 1 ≤ n) :
    (allocate_to_workers links n).length = n ∧
    (allocate_to_workers links n).flatten = links ∧
    ((allocate_to_workers links n).map List.length).sum = links.length ∧
    (allocate_to_workers links n).map List.length
      = (List.range n).map (fun i =>
          if i < links.length % n then links.length / n + 1
          else links.length / n) ∧
    (∀ g1 ∈ allocate_to_workers links n, ∀ g2 ∈ allocate_to_workers links n,
       g1.length ≤ g2.length + 1) := by
  refine ⟨?_, alloc_join links n hn, ?_, ?_, ?_⟩
  · simp [allocate_to_workers]
  · have h := congrArg List.length (alloc_join links n hn)
    rw [List.length_flatten] at h
    exact h
  · rw [alloc_length_map links n]
    apply List.map_congr_left
    intro i _
    rfl
  · intro g1 h1 g2 h2
    rcases alloc_mem_length links n h1 with h | h <;>
      rcases alloc_mem_length links n h2 with h' | h' <;> omega

theorem c5_partition_props_witness :
    1 ≤ 2 ∧ (allocate_to_workers [0, 1, 2, 3, 4] 2).flatten = [0, 1, 2, 3, 4] :=
  ⟨by decide, (c5_partition_props [0, 1, 2, 3, 4] 2 (by decide)).2.1⟩
